import Mathlib

/-!
Verification of the shaka-streamer-go orchestrator against its specification.

The Go sources under `streamer/` are shallowly embedded below.  Go strings are
modelled as `List Char` (the code only manipulates ASCII command-line tokens
and paths), Go `float64` values as exact rationals `ℚ` (every claim settled
here depends only on exact arithmetic: divisions, halvings and comparisons of
probe fractions and bucket maxima, never on rounding), Go machine integers as
`Int`, and fallible or panicking Go code as `Option`/`Except` with `none`
(resp. `.error`) standing for the runtime panic.  Every definition keeps the
name and the control-flow of the Go function it embeds; deviations forced by
the translation (e.g. rendering of numbers) are flagged in the comments at the
point where they occur.
-/

deriving instance DecidableEq for Except

namespace ShakaStreamerGo

/-- Go strings, as lists of characters. -/
abbrev Str := List Char

/-- Shorthand turning a Lean string literal into the `Str` model. -/
def str (s : String) : Str := s.toList

/-! ## Go standard-library string helpers used by the sources -/

/-- Model of `strings.HasPrefix(a, b)`. -/
def goHasPre : Str → Str → Bool
  | _, [] => true
  | [], _ :: _ => false
  | a :: as, b :: bs => a = b && goHasPre as bs

/-- Model of `strings.HasSuffix(a, b)`. -/
def goHasSuf (a b : Str) : Bool := goHasPre a.reverse b.reverse

/-- Substring test: true when `b` occurs contiguously inside `a`.  This is the
semantics of matching the Python regular expression `.*b` against `a` the way
`gsutil rsync -x` does (the pattern is unanchored on the right, so it succeeds
exactly when `b` occurs anywhere in `a`). -/
def goContains : Str → Str → Bool
  | [], b => b.isEmpty
  | a :: as, b => goHasPre (a :: as) b || goContains as b

/-- Model of `strings.TrimSuffix(s, suffix)`: removes one trailing copy of
`suffix` when present. -/
def goTrimSuffix (s suffix : Str) : Str :=
  if goHasSuf s suffix then s.take (s.length - suffix.length) else s

/-- Model of `strings.Split(s, sep)` for a one-character separator, the only
shape used by the sources (`"/"`, `"\n"`, `"|"`). -/
def goSplit (c : Char) : Str → List Str
  | [] => [[]]
  | x :: xs =>
    match goSplit c xs with
    | [] => [[]]
    | r :: rs => if x = c then [] :: r :: rs else (x :: r) :: rs

/-- Model of `strings.TrimSpace`. -/
def goTrimSpace (s : Str) : Str :=
  ((s.dropWhile Char.isWhitespace).reverse.dropWhile Char.isWhitespace).reverse

/-- Decimal digit-string value: `some n` when the string is a non-empty string
of decimal digits denoting `n`, otherwise `none`. -/
def digitsVal? (s : Str) : Option Nat :=
  if s ≠ [] ∧ s.all Char.isDigit then
    some (s.foldl (fun acc c => 10 * acc + (c.toNat - 48)) 0)
  else none

/-- Model of `f, _ := strconv.ParseFloat(piece, 64)` as the sources use it: the
error is discarded, so a non-numeric piece contributes Go's zero value.  The
probe output pieces parsed by the sources are plain decimal integers (ffprobe
`avg_frame_rate` fractions), which `float64` represents exactly, so ℚ models
the parse without loss. -/
def parseFloatOrZero (s : Str) : ℚ :=
  match digitsVal? s with
  | some n => (n : ℚ)
  | none => 0

/-! ## autodetect.go -/

/-- Input types (`InputType` constants in the sources). -/
inductive InputType
  | file
  | looped_file
  | webcam
  | microphone
  | external_command
deriving DecidableEq, Repr

/-- Media types (`MediaType` constants in the sources). -/
inductive MediaType
  | audio
  | video
  | text
deriving DecidableEq, Repr

/-- `TYPES_WE_CANT_PROBE` from autodetect.go. -/
def TYPES_WE_CANT_PROBE : List InputType := [.external_command]

/-- The `Input` record (transcoder_node_test.go, second document), restricted
to the fields the embedded functions read. -/
structure Input where
  inputType : InputType
  name : Str
  extraInputArgs : Str
  mediaType : MediaType
  frameRate : ℚ
  trackNum : Int
  isInterlaced : Bool
  language : Str
  startTime : Str
  endTime : Str
  drmLabel : Str
  skipEncryption : Int
  filters : List Str
deriving DecidableEq, Repr

/-- Outcome of actually running the external ffprobe process: the command can
fail, or succeed producing (combined) output bytes.  The embedding takes this
outcome as a parameter, since the external process is outside the program. -/
inductive ProbeRun
  | cmdError
  | output (s : Str)
deriving DecidableEq, Repr

/-- Model of `probe(i, field)` from autodetect.go.  The probed field string
does not influence the control flow modelled here.  Mirrors the source: a
non-probeable input type is an error; a failing command is an error; blank
output is `ok ""`; otherwise the first newline-separated chunk is returned. -/
def probe (i : Input) (run : ProbeRun) : Except Str Str :=
  if i.inputType ∈ TYPES_WE_CANT_PROBE then
    .error (str "not supported")
  else
    match run with
    | .cmdError => .error (str "error running command")
    | .output outputBytes =>
      let s := goTrimSpace outputBytes
      if s = [] then .ok []
      else
        match goSplit '\n' s with
        | [] => .ok s
        | line :: _ => .ok line

/-- Model of `IsPresent` from autodetect.go: `_, err := probe(i, "stream=index");
return err == nil`. -/
def IsPresent (i : Input) (run : ProbeRun) : Bool :=
  match probe i run with
  | .ok _ => true
  | .error _ => false

/-- Configuration errors surfaced by input resolution (configuration.go). -/
inductive ConfigErr
  | inputNotFound (name : Str) (trackNum : Int)
deriving DecidableEq, Repr

/-- The presence gate at the top of `Input.SetDefaults`
(transcoder_node_test.go, second document, lines 263–272): the track-presence
check runs first and panics with `InputNotFound` when `IsPresent` is false. -/
def setDefaultsPresence (i : Input) (run : ProbeRun) : Except ConfigErr Unit :=
  if IsPresent i run then .ok () else .error (.inputNotFound i.name i.trackNum)

/-- Model of `GetFrameRate` from autodetect.go, as a function of the probe of
`stream=avg_frame_rate` (already reduced to its first line by `probe`; `none`
is a probe error).  The division is exact rational division; the pieces that
occur are decimal integers, which `float64` also represents exactly. -/
def GetFrameRate (isInterlaced : Bool) (probed : Option Str) : Option ℚ :=
  match probed with
  | none => none
  | some s =>
    if s.length < 1 then none
    else
      match goSplit '/' (goTrimSuffix s (str "|")) with
      | [] => none
      | [piece] => some (parseFloatOrZero piece)
      | p0 :: p1 :: _ =>
        let frameRate := parseFloatOrZero p0 / parseFloatOrZero p1
        some (if isInterlaced then frameRate / 2 else frameRate)

/-! ## m3u8_concater.go -/

/-- Go string slicing `s[lo:hi]` with Go's bounds rule `0 ≤ lo ≤ hi ≤ len(s)`;
`none` models the slice-bounds runtime panic. -/
def goSliceStr (s : Str) (lo hi : Int) : Option Str :=
  if 0 ≤ lo ∧ lo ≤ hi ∧ hi ≤ (s.length : Int) then
    some ((s.take hi.toNat).drop lo.toNat)
  else none

/-- Model of `unquote` from m3u8_concater.go: `return str[1 : len(str)-1]`. -/
def unquote (s : Str) : Option Str := goSliceStr s 1 ((s.length : Int) - 1)

/-- Model of `quote` from m3u8_concater.go. -/
def quote (s : Str) : Str := '"' :: s ++ ['"']

/-- Go map lookup `m[k]` over an association-list model of the attribute
dictionary built by `extractAttributes`; a missing key yields Go's zero value,
the empty string. -/
def attribsGet (attribs : List (Str × Str)) (k : Str) : Str :=
  match attribs.find? (fun kv => kv.1 = k) with
  | some kv => kv.2
  | none => []

/-- Simplified `filepath.Join(a, b)` for two non-empty relative components
(the path-cleaning performed by Go is irrelevant to every claim settled
here). -/
def joinPath2 (a b : Str) : Str := a ++ '/' :: b

/-- The `#EXT-X-MAP` branch of `NewMediaPlaylist` (m3u8_concater.go lines
136–145): with `attribs` the dictionary extracted from the line, the branch
computes `"#EXT-X-MAP:URI=" + quote(filepath.Join(periodDir, unquote(attribs["URI"])))`
plus an optional `BYTERANGE` part; `none` models the panic raised inside
`unquote`. -/
def extXMapRewrite (periodDir : Str) (attribs : List (Str × Str)) : Option Str :=
  (unquote (attribsGet attribs (str "URI"))).map (fun uri =>
    let core := str "#EXT-X-MAP:URI=" ++ quote (joinPath2 periodDir uri)
    match attribs.find? (fun kv => kv.1 = str "BYTERANGE") with
    | some kv => core ++ str ",BYTERANGE=" ++ kv.2
    | none => core)

/-- Concrete external-command input used to evaluate the presence gate.  The
remaining fields are the Go zero values `Input.SetDefaults` would see. -/
def extCmdInput : Input :=
  ⟨.external_command, str "cat video.mp4", [], .video, 0, 0, false, [], [], [], [], 0, []⟩

/-- Concrete plain-file input used to evaluate the presence gate. -/
def plainFileInput : Input :=
  ⟨.file, str "video.mp4", [], .video, 0, 0, false, [], [], [], [], 0, []⟩

/-! ## bitrate_configuration.go -/

/-- The `VideoResolution` record: maxima plus the codec→bitrate table.
`maxFrameRate := none` models `math.Inf(1)`, the unlimited default used by the
`-hfr` buckets. -/
structure VideoResolution where
  maxWidth : Int
  maxHeight : Int
  maxFrameRate : Option ℚ
  bitrates : List (Str × Str)
deriving DecidableEq, Repr

/-- Comparison `frameRate <= bucket.MaxFrameRate` where `none` is `+Inf`. -/
def rateLE (frameRate : ℚ) (maxRate : Option ℚ) : Bool :=
  match maxRate with
  | none => true
  | some m => frameRate ≤ m

/-- The `DefaultVideoResolutions` table, written here in the order of the
source literal.  In Go this is a map; a `range` over it visits the entries in
an order the runtime chooses anew on every run, so functions iterating over it
receive the iteration order explicitly below. -/
def DefaultVideoResolutions : List (Str × VideoResolution) :=
  [ (str "144p", ⟨256, 144, some 30,
      [(str "h264", str "108k"), (str "vp9", str "96k"), (str "hevc", str "96k"), (str "av1", str "72k")]⟩)
  , (str "240p", ⟨426, 240, some 30,
      [(str "h264", str "242k"), (str "vp9", str "151k"), (str "hevc", str "151k"), (str "av1", str "114k")]⟩)
  , (str "360p", ⟨640, 360, some 30,
      [(str "h264", str "400k"), (str "vp9", str "277k"), (str "hevc", str "277k"), (str "av1", str "210k")]⟩)
  , (str "480p", ⟨854, 480, some 30,
      [(str "h264", str "1M"), (str "vp9", str "512k"), (str "hevc", str "512k"), (str "av1", str "389k")]⟩)
  , (str "576p", ⟨1024, 576, some 30,
      [(str "h264", str "1.5M"), (str "vp9", str "768k"), (str "hevc", str "768k"), (str "av1", str "450k")]⟩)
  , (str "720p", ⟨1280, 720, some 30,
      [(str "h264", str "2M"), (str "vp9", str "1M"), (str "hevc", str "1M"), (str "av1", str "512k")]⟩)
  , (str "720p-hfr", ⟨1280, 720, none,
      [(str "h264", str "3M"), (str "vp9", str "2M"), (str "hevc", str "2M"), (str "av1", str "778k")]⟩)
  , (str "1080p", ⟨1920, 1080, some 30,
      [(str "h264", str "4M"), (str "vp9", str "2M"), (str "hevc", str "2M"), (str "av1", str "850k")]⟩)
  , (str "1080p-hfr", ⟨1920, 1080, none,
      [(str "h264", str "5M"), (str "vp9", str "3M"), (str "hevc", str "3M"), (str "av1", str "1M")]⟩)
  , (str "1440p", ⟨2560, 1440, some 30,
      [(str "h264", str "9M"), (str "vp9", str "6M"), (str "hevc", str "6M"), (str "av1", str "3.5M")]⟩)
  , (str "1440p-hfr", ⟨2560, 1440, none,
      [(str "h264", str "14M"), (str "vp9", str "9M"), (str "hevc", str "9M"), (str "av1", str "5M")]⟩)
  , (str "4k", ⟨4096, 2160, some 30,
      [(str "h264", str "17M"), (str "vp9", str "12M"), (str "hevc", str "12M"), (str "av1", str "6M")]⟩)
  , (str "4k-hfr", ⟨4096, 2160, none,
      [(str "h264", str "25M"), (str "vp9", str "18M"), (str "hevc", str "18M"), (str "av1", str "9M")]⟩)
  , (str "8k", ⟨8192, 4320, some 30,
      [(str "h264", str "40M"), (str "vp9", str "24M"), (str "hevc", str "24M"), (str "av1", str "12M")]⟩)
  , (str "8k-hfr", ⟨8192, 4320, none,
      [(str "h264", str "60M"), (str "vp9", str "36M"), (str "hevc", str "36M"), (str "av1", str "18M")]⟩) ]

/-- The bucket test in the loop body of `GetResolution` (autodetect.go lines
160–165): `width <= bucket.MaxWidth && height <= bucket.MaxHeight &&
i.FrameRate <= bucket.MaxFrameRate`. -/
def fitsResolution (width height : Int) (frameRate : ℚ) (bucket : VideoResolution) : Bool :=
  width ≤ bucket.maxWidth && height ≤ bucket.maxHeight && rateLE frameRate bucket.maxFrameRate

/-- Model of `GetResolution` (autodetect.go lines 143–168), with the probed
`WIDTH|HEIGHT` already split into its two numbers: returns the key of the
first entry of the `range` iteration that the measured values fit into.
`order` is the iteration order the Go runtime picks for the
`DefaultVideoResolutions` map on this run — an arbitrary permutation of the
table. -/
def GetResolution (order : List (Str × VideoResolution)) (width height : Int)
    (frameRate : ℚ) : Option Str :=
  (order.find? (fun kv => fitsResolution width height frameRate kv.2)).map (fun kv => kv.1)

/-! ## periodconcat_node.go -/

/-- The dynamic type of a value stored in a packager node's `OutputStreams`
slice (a Go interface value carries its concrete dynamic type).  The
constructors `NewVideoOutputStream`, `NewAudioOutputStream` and
`NewTextOutputStream` (output_stream.go) return pointers, so the streams the
controller stores have the `…Ptr` dynamic types; the `…Val` types exist in the
program only as the (never-stored) value types. -/
inductive GoDynType
  | videoOutputStreamVal
  | audioOutputStreamVal
  | textOutputStreamVal
  | videoOutputStreamPtr
  | audioOutputStreamPtr
  | textOutputStreamPtr
deriving DecidableEq, Repr

/-- The `case VideoOutputStream:` arm of the type switch in
`NewPeriodConcatNode`: a Go type-switch case written with the value type `T`
matches only dynamic type `T`, never `*T`. -/
def switchCaseVideoVal : GoDynType → Bool
  | .videoOutputStreamVal => true
  | _ => false

/-- The `case AudioOutputStream:` arm of the same type switch. -/
def switchCaseAudioVal : GoDynType → Bool
  | .audioOutputStreamVal => true
  | _ => false

/-- The `hasVid` accumulation of `NewPeriodConcatNode`'s inner loop over one
period's `OutputStreams`. -/
def periodHasVid (streams : List GoDynType) : Bool := streams.any switchCaseVideoVal

/-- The `hasAud` accumulation of the same loop. -/
def periodHasAud (streams : List GoDynType) : Bool := streams.any switchCaseAudioVal

/-- The `concatWillFail` flag computed by `NewPeriodConcatNode`
(periodconcat_node.go lines 16–90): every period's media-kind pair is compared
against the first period's, and the flag is set (the loop breaks after the
warning) on the first mismatch; `ThreadSinglePass` later panics exactly when
the flag is set.  The source indexes `packagerNodes[0]` before the loop, so an
empty node list panics, modelled by `none`. -/
def concatWillFail? (periods : List (List GoDynType)) : Option Bool :=
  match periods with
  | [] => none
  | fp :: _ =>
    some (periods.any (fun p =>
      periodHasVid p ≠ periodHasVid fp || periodHasAud p ≠ periodHasAud fp))

/-! ## util.go: CheckCommandVersion -/

/-- Value of a digit string, as computed by `strconv.Atoi` on the digit runs
the version regular expression yields. -/
def digitsToNat (s : Str) : Nat := s.foldl (fun acc c => 10 * acc + (c.toNat - 48)) 0

/-- Greedy parse of `(\.[0-9]+)*` at the head of `s`: the tail groups of the
version regular expression `[0-9]+(?:\.[0-9]+)+`, returning the group values
and the rest of the string.  The `fuel` argument only bounds the recursion
(every group consumes at least its leading dot, so `s.length` is enough) and
keeps the definition structurally recursive, hence evaluable by the kernel. -/
def moreVersionGroupsGo (fuel : Nat) (s : Str) : List Nat × Str :=
  match fuel, s with
  | fuel + 1, '.' :: rest =>
    let ds := rest.takeWhile Char.isDigit
    if ds = [] then ([], '.' :: rest)
    else
      let next := moreVersionGroupsGo fuel (rest.dropWhile Char.isDigit)
      (digitsToNat ds :: next.1, next.2)
  | _, s => ([], s)

/-- Entry point of the group parse with sufficient fuel. -/
def moreVersionGroups (s : Str) : List Nat × Str := moreVersionGroupsGo s.length s

/-- Attempt of the version regular expression at the start of `s`: one or more
digits followed by at least one `.digits` group, all greedy. -/
def matchVersionAt (s : Str) : Option (List Nat) :=
  let ds := s.takeWhile Char.isDigit
  if ds = [] then none
  else
    let groups := (moreVersionGroups (s.dropWhile Char.isDigit)).1
    if groups = [] then none
    else some (digitsToNat ds :: groups)

/-- Model of `versionRegex.FindString(output)` followed by the split-and-Atoi
loop of `CheckCommandVersion` (util.go lines 184–196): the leftmost match of
`[0-9]+(?:\.[0-9]+)+`, already converted to its numeric components (so the
result always has at least two components). -/
def versionFind : Str → Option (List Nat)
  | [] => none
  | c :: rest =>
    match matchVersionAt (c :: rest) with
    | some v => some v
    | none => versionFind rest

/-- The out-of-date comparison of `CheckCommandVersion` (util.go line 198),
with Go's left-to-right short-circuit evaluation of
`v[0] < m[0] || (v[0] == m[0] && v[1] < m[1]) || (v[0] == m[0] && v[1] == m[1] && v[2] < m[2])`
made explicit; `none` models the index-out-of-range panic raised when an
element beyond the end of either slice is read. -/
def versionLt? (version minimumVersion : List Int) : Option Bool := do
  let v0 ← version.get? 0
  let m0 ← minimumVersion.get? 0
  if v0 < m0 then return true
  else if v0 = m0 then
    let v1 ← version.get? 1
    let m1 ← minimumVersion.get? 1
    if v1 < m1 then return true
    else if v1 = m1 then
      let v2 ← version.get? 2
      let m2 ← minimumVersion.get? 2
      return (v2 < m2)
    else return false
  else return false

/-- Outcome of the dependency-version gate. -/
inductive VersionOutcome
  | ok
  | outOfDate
  | unparseable
deriving DecidableEq, Repr

/-- Model of `CheckCommandVersion` (util.go lines 168–206) once the external
command has produced `output` (the preceding branch, a command that fails to
run at all, returns the typed not-found error and is independent of the
comparison modelled here): no regex match is the typed version-unparseable
error, and otherwise the comparison decides out-of-date versus success, with
`none` propagating the comparison's index-out-of-range panic. -/
def checkCommandVersion? (output : Str) (minimumVersion : List Int) : Option VersionOutcome :=
  match versionFind output with
  | none => some .unparseable
  | some vs =>
    (versionLt? (vs.map (fun n => (n : Int))) minimumVersion).map
      (fun lt => if lt then .outOfDate else .ok)

/-! ## CloudNode.Upload (bitrate_configuration.go, third document, lines 856–954) -/

/-- Matching of one path component against one pattern component with Go's
`path.Match` semantics: `*` matches any (possibly empty) run of non-separator
characters, `?` matches one character, everything else is literal.  (The
patterns this program passes — `**`, `*.mpd`, `*.m3u8` — contain no character
classes or escapes, so those are not modelled.)  The `fuel` argument only
bounds the recursion (`pattern.length + name.length` suffices, every step
consuming from one of the two) so the definition stays structural. -/
def goMatchCompGo (fuel : Nat) (pattern name : Str) : Bool :=
  match fuel with
  | 0 => false
  | fuel + 1 =>
    match pattern, name with
    | [], [] => true
    | [], _ :: _ => false
    | c :: p, [] => c = '*' && goMatchCompGo fuel p []
    | c :: p, c' :: n =>
      if c = '*' then goMatchCompGo fuel p (c' :: n) || goMatchCompGo fuel (c :: p) n
      else (c = '?' || c = c') && goMatchCompGo fuel p n

/-- Entry point of the component match with sufficient fuel. -/
def goMatchComp (pattern name : Str) : Bool :=
  goMatchCompGo (pattern.length + name.length + 1) pattern name

/-- A filesystem path relative to the upload input directory, as its list of
`/`-separated components. -/
abbrev GoPath := List Str

/-- Model of `filepath.Glob(filepath.Join(inputDir, pattern))` membership for
a file at relative path `p`: Go's `Match` treats `/` as matchable only by a
literal `/`, so a path matches exactly when it has the same number of
components as the pattern and the components match pairwise.  (The `inputDir`
prefix of both pattern and candidate matches itself and is dropped.) -/
def globMatchPath (pattern : List Str) (p : GoPath) : Bool :=
  pattern.length = p.length && (pattern.zip p).all (fun pc => goMatchComp pc.1 pc.2)

/-- The manifest capture of `CloudNode.Upload`:
`glob(inputDir + "/**/*.mpd")` followed by appending
`glob(inputDir + "/**/*.m3u8")`.  Go's `filepath.Glob` gives `**` no special
meaning — it is an ordinary `*`-pattern component — in spite of the source
comment "glob's ** will also match the base dir" (Python semantics). -/
def uploadManifestFiles (files : List GoPath) : List GoPath :=
  files.filter (fun f => globMatchPath [str "**", str "*.mpd"] f) ++
    files.filter (fun f => globMatchPath [str "**", str "*.m3u8"] f)

/-- A relative path joined back into one string, for the regex-based
exclusions of the sync tool. -/
def pathString : GoPath → Str
  | [] => []
  | [c] => c
  | c :: rest => c ++ '/' :: pathString rest

/-- Exclusion test of the first (segment) sync pass, `gsutil rsync -x ".*m3u8"
-x ".*mpd"`: the Python regular expressions are matched from the start of the
relative path and are unanchored on the right, so they exclude exactly the
paths containing `m3u8` resp. `mpd` anywhere. -/
def pass1Excluded (f : GoPath) : Bool :=
  goContains (pathString f) (str "m3u8") || goContains (pathString f) (str "mpd")

/-- The set of files the first (segment) sync pass of `CloudNode.Upload`
mirrors to the destination. -/
def pass1Files (files : List GoPath) : List GoPath :=
  files.filter (fun f => !pass1Excluded f)

/-! ## configuration.go: the pipeline configuration record -/

/-- Streaming modes. -/
inductive StreamingMode
  | live
  | vod
deriving DecidableEq, Repr

/-- Manifest formats. -/
inductive ManifestFormat
  | dash
  | hls
deriving DecidableEq, Repr

/-- A DASH `UTCTiming` pair. -/
structure UtcTimingPair where
  schemeIdUri : Str
  value : Str
deriving DecidableEq, Repr

/-- Encryption modes. -/
inductive EncryptionMode
  | widevine
  | raw
deriving DecidableEq, Repr

/-- One raw encryption key. -/
structure RawKeyConfig where
  label : Str
  keyID : Str
  key : Str
deriving DecidableEq, Repr

/-- The `EncryptionConfig` record, restricted to the fields the packager
command construction reads. -/
structure EncryptionConfig where
  enable : Bool
  encryptionMode : EncryptionMode
  pssh : Str
  iv : Str
  keys : List RawKeyConfig
  contentID : Str
  keyServerURL : Str
  signer : Str
  signingKey : Str
  signingIV : Str
deriving DecidableEq, Repr

/-- The `PipelineConfig` record, restricted to the fields the transcoder and
packager command constructions read.  `utcTimings := none` models a nil Go
slice (the source distinguishes nil from empty with a `!= nil` check). -/
structure PipelineConfig where
  streamingMode : StreamingMode
  quiet : Bool
  debugLogs : Bool
  hwAccelAPI : Str
  manifestFormat : List ManifestFormat
  dashOutput : Str
  hlsOutput : Str
  segmentFolder : Str
  segmentSize : ℚ
  segmentPerFile : Bool
  availabilityWindow : Int
  presentationDelay : Int
  updatePeriod : Int
  encryption : EncryptionConfig
  lowLatencyDashMode : Bool
  utcTimings : Option (List UtcTimingPair)
deriving DecidableEq, Repr

/-! ## Number rendering and Go float conversions -/

/-- Model of `strconv.Itoa` / `%d`. -/
def fmtInt (i : Int) : Str := str (toString i)

/-- Rendering of a `float64` (`strconv.FormatFloat`).  The exact decimal
rendering is not load-bearing for any claim settled here; integral values are
rendered the way Go renders them, non-integral values as exact fractions. -/
def fmtFloat (q : ℚ) : Str :=
  if q.den = 1 then fmtInt q.num else fmtInt q.num ++ '/' :: str (toString q.den)

/-- Go's `int(a * b)` on two `float64` values, modelled exactly: truncation
toward zero of the product.  Computed on numerators and denominators directly,
because ℚ multiplication normalises through `Nat.gcd`, which the kernel cannot
evaluate; the value is the same. -/
def goIntMul (a b : ℚ) : Int :=
  (a.num * b.num).sign * (((a.num * b.num).natAbs / (a.den * b.den) : Nat) : Int)

/-- Model of `strings.Fields` for the space-separated argument strings the
configs carry (other whitespace classes do not occur in them). -/
def goFields (s : Str) : List Str := (goSplit ' ' s).filter (fun w => w ≠ [])

/-- Model of `strings.Join(parts, sep)` for the one-character separators the
sources use. -/
def goJoin (sep : Char) : List Str → Str
  | [] => []
  | [x] => x
  | x :: y :: rest => x ++ sep :: goJoin sep (y :: rest)

/-- Concatenating map: the accumulation of a Go `for` loop that appends a
chunk of arguments per element. -/
def catMap (f : α → List β) : List α → List β
  | [] => []
  | x :: xs => f x ++ catMap f xs

/-- Concatenating map threaded through `Option`: the same loop when an
iteration can panic. -/
def catMapM (f : α → Option (List β)) : List α → Option (List β)
  | [] => some []
  | x :: xs => do
    let h ← f x
    let t ← catMapM f xs
    return h ++ t

/-! ## input configuration: stream specifiers and input args -/

/-- Model of `Input.GetStreamSpecifier`. -/
def Input.getStreamSpecifier (i : Input) : Str :=
  match i.mediaType with
  | .video => str "v:" ++ fmtInt i.trackNum
  | .audio => str "a:" ++ fmtInt i.trackNum
  | .text => str "s:" ++ fmtInt i.trackNum

/-- Model of `Input.GetInputArgs`: the per-input-type argument matrix, written
with the literal keys of the source (`"Linux"`, `"Darwin"`, `"Windows"`) and
looked up with the value of `runtime.GOOS`; `none` models the panic raised
when the row for a webcam/microphone has no entry for the running platform.
Input types without a row return no arguments. -/
def getInputArgs? (goos : Str) (i : Input) : Option (List Str) :=
  match i.inputType with
  | .webcam =>
    if goos = str "Linux" then some [str "-f", str "video4linux2"]
    else if goos = str "Darwin" then some [str "-f", str "avfoundation", str "-framerate", str "30"]
    else if goos = str "Windows" then some [str "-f", str "dshow"]
    else none
  | .microphone =>
    if goos = str "Linux" then some [str "-f", str "pulse"]
    else if goos = str "Darwin" then some [str "-f", str "avfoundation"]
    else if goos = str "Windows" then some [str "-f", str "dshow"]
    else none
  | _ => some []

/-! ## bitrate_configuration.go: codecs -/

/-- A software audio codec. -/
structure AudioCodec where
  name : Str
deriving DecidableEq, Repr

/-- Model of `AudioCodec.GetFFmpegCodecString`. -/
def AudioCodec.getFFmpegCodecString (a : AudioCodec) (hwaccelAPI : Str) : Str :=
  if a.name = str "opus" then str "libopus" else a.name

/-- Model of `AudioCodec.GetOutputFormat`; `none` models the panic on an
unknown codec name. -/
def AudioCodec.getOutputFormat? (a : AudioCodec) : Option Str :=
  if a.name = str "opus" then some (str "webm")
  else if a.name = str "aac" ∨ a.name = str "ac3" ∨ a.name = str "eac3" then some (str "mp4")
  else none

/-- A video codec; `NewVideoCodec` sets `hwAcc` exactly when the configured
name starts with `hw:` (and keeps the full name, prefix included). -/
structure VideoCodec where
  name : Str
  hwAcc : Bool
deriving DecidableEq, Repr

/-- Model of `VideoCodec.GetFFmpegCodecString`. -/
def VideoCodec.getFFmpegCodecString (v : VideoCodec) (hwaccelAPI : Str) : Str :=
  if v.hwAcc then v.name ++ '_' :: hwaccelAPI else v.name

/-- Model of `VideoCodec.GetOutputFormat`; `none` models the panic on an
unknown codec name. -/
def VideoCodec.getOutputFormat? (v : VideoCodec) : Option Str :=
  if v.name = str "vp9" then some (str "webm")
  else if v.name = str "h264" ∨ v.name = str "hevc" ∨ v.name = str "av1" then some (str "mp4")
  else none

/-- The `AudioChannelLayout` record. -/
structure AudioChannelLayout where
  maxChannels : Int
  bitrates : List (Str × Str)
deriving DecidableEq, Repr

/-- Go map lookup `bucket.Bitrates[codec]` with the zero-value (empty string)
default. -/
def bitrateLookup (bitrates : List (Str × Str)) (codecName : Str) : Str :=
  match bitrates.find? (fun kv => kv.1 = codecName) with
  | some kv => kv.2
  | none => []

/-! ## output_stream.go -/

/-- Common per-stream data of `OutputStream`: the input, the skip-transcoding
flag, the pipe endpoints, and the three segment file names the
`Get*SegFile` template interpolation produces (carried as data here — no
claim settled below depends on the template text). -/
structure OutputStreamBase where
  input : Input
  skipTranscoding : Bool
  pipeReadEnd : Str
  pipeWriteEnd : Str
  initSegName : Str
  mediaSegName : Str
  singleSegName : Str
deriving DecidableEq, Repr

/-- The `AudioOutputStream` record. -/
structure AudioOutputStream where
  base : OutputStreamBase
  layout : AudioChannelLayout
  codec : AudioCodec
deriving DecidableEq, Repr

/-- The `VideoOutputStream` record. -/
structure VideoOutputStream where
  base : OutputStreamBase
  resolution : VideoResolution
  codec : VideoCodec
deriving DecidableEq, Repr

/-- The `TextOutputStream` record (its codec is nil). -/
structure TextOutputStream where
  base : OutputStreamBase
deriving DecidableEq, Repr

/-- A `MediaOutputStream` interface value: one of the three stream kinds. -/
inductive MediaOutputStream
  | audio (s : AudioOutputStream)
  | video (s : VideoOutputStream)
  | text (s : TextOutputStream)
deriving DecidableEq, Repr

/-- The shared base of a stream. -/
def MediaOutputStream.base : MediaOutputStream → OutputStreamBase
  | .audio s => s.base
  | .video s => s.base
  | .text s => s.base

/-- Model of `GetInput`. -/
def MediaOutputStream.getInput (s : MediaOutputStream) : Input := s.base.input

/-- Model of `SkippedTranscoding`. -/
def MediaOutputStream.skippedTranscoding (s : MediaOutputStream) : Bool :=
  s.base.skipTranscoding

/-- Model of `GetType`, as the string the packager descriptor receives. -/
def MediaOutputStream.typeStr : MediaOutputStream → Str
  | .audio _ => str "audio"
  | .video _ => str "video"
  | .text _ => str "text"

/-- Model of `IsHardwareAccelerated`: false for audio
(`AudioCodec.IsHardwareAccelerated`) and for text (nil codec); the codec's
`HWAcc` flag for video. -/
def MediaOutputStream.isHardwareAccelerated : MediaOutputStream → Bool
  | .audio _ => false
  | .video s => s.codec.hwAcc
  | .text _ => false

/-- Model of `IsDashOnly`: codec non-nil and output format `webm`.  (In Go a
codec name outside the known tables panics inside `GetOutputFormat` while the
stream's features are being built, before any packager node is constructed;
for the streams that reach a node the comparison below coincides with the
source.) -/
def MediaOutputStream.isDashOnly : MediaOutputStream → Bool
  | .audio s => s.codec.getOutputFormat? = some (str "webm")
  | .video s => s.codec.getOutputFormat? = some (str "webm")
  | .text _ => false

/-- Model of `AudioOutputStream.GetBitrate`. -/
def AudioOutputStream.getBitrate (s : AudioOutputStream) : Str :=
  bitrateLookup s.layout.bitrates s.codec.name

/-- Model of `VideoOutputStream.GetBitrate`. -/
def VideoOutputStream.getBitrate (s : VideoOutputStream) : Str :=
  bitrateLookup s.resolution.bitrates s.codec.name

/-! ## transcoder_node.go -/

/-- Comparison `bucket.MaxFrameRate < frameRate` where `none` is `+Inf`. -/
def rateLT (maxRate : Option ℚ) (frameRate : ℚ) : Bool :=
  match maxRate with
  | none => false
  | some m => m < frameRate

/-- Rendering of a possibly-infinite max frame rate (`+Inf` renders as Go
renders it; the sources only render it in a branch guarded by `rateLT`, which
is false for `+Inf`). -/
def fmtMaxRate (m : Option ℚ) : Str :=
  match m with
  | some v => fmtFloat v
  | none => str "+Inf"

/-- Model of `TranscoderNode.encodeAudio`. -/
def encodeAudio (cfg : PipelineConfig) (stream : AudioOutputStream) (i : Input) : List Str :=
  let filters :=
    (if stream.layout.maxChannels = 6 then [str "channelmap=channel_layout=5.1"] else []) ++
      i.filters
  let args := [str "-vn", str "-ac", fmtInt stream.layout.maxChannels]
  let args := args ++
    [str "-c:a", stream.codec.getFFmpegCodecString cfg.hwAccelAPI,
     str "-b:a", stream.getBitrate,
     str "-f", str "mp4",
     str "-frag_duration", fmtInt (goIntMul cfg.segmentSize 1000000),
     str "-strict", str "experimental"]
  if filters.length > 0 then args ++ [str "-af", goJoin ',' filters] else args

/-- Model of `TranscoderNode.encodeVideo`. -/
def encodeVideo (cfg : PipelineConfig) (stream : VideoOutputStream) (i : Input) : List Str :=
  let filters : List Str := if i.isInterlaced then [str "pp=fd"] else []
  let args : List Str := if i.isInterlaced then [str "-r", fmtFloat i.frameRate] else []
  let args := args ++
    (if rateLT stream.resolution.maxFrameRate i.frameRate then
      [str "-r", fmtMaxRate stream.resolution.maxFrameRate]
    else [])
  let filters := filters ++ i.filters
  let filters := filters ++
    (if stream.codec.hwAcc && cfg.hwAccelAPI = str "vaapi" then
      [str "format=nv12", str "hwupload", str "scale_vaapi=-2:" ++ fmtInt stream.resolution.maxHeight]
    else [str "scale=-2:" ++ fmtInt stream.resolution.maxHeight])
  let filters := filters ++ [str "setsar=1:1"]
  let args := args ++
    (if (stream.codec.name = str "h264" ∨ stream.codec.name = str "hevc") ∧ ¬stream.codec.hwAcc then
      (if cfg.streamingMode = .live then [str "-preset", str "ultrafast"]
       else [str "-preset", str "slow", str "-flags", str "+loop"])
    else [])
  let args := args ++
    (if stream.codec.name = str "h264" then
      [str "-profile:v", if stream.resolution.maxHeight ≥ 720 then str "high" else str "main"]
    else [])
  let args := args ++
    (if stream.codec.name = str "h264" ∨ stream.codec.name = str "hevc" then
      [str "-pix_fmt", str "yuv420p", str "-flags", str "+cgop"]
    else if stream.codec.name = str "vp9" then
      [str "-row-mt", str "1", str "-speed", str "2"]
    else if stream.codec.name = str "av1" then
      [str "-cpu-used", str "8", str "-row-mt", str "1", str "-tiles", str "2x2",
       str "-strict", str "experimental"]
    else [])
  let keyframeInterval := goIntMul cfg.segmentSize i.frameRate
  args ++
    [str "-an",
     str "-c:v", stream.codec.getFFmpegCodecString cfg.hwAccelAPI,
     str "-b:v", stream.getBitrate,
     str "-f", str "mp4",
     str "-movflags", str "+frag_keyframe",
     str "-frag_duration", fmtInt (goIntMul cfg.segmentSize 1000000),
     str "-keyint_min", fmtInt keyframeInterval, str "-g", fmtInt keyframeInterval,
     str "-vf", goJoin ',' filters]

/-- Model of `TranscoderNode.encodeText`. -/
def encodeText : List Str := [str "-f", str "webvtt"]

/-- The hardware-acceleration step of `TranscoderNode.Start` (lines 53–61):
the loop appends the device pair once for every output that is hardware
accelerated while the selected API is VAAPI. -/
def vaapiDeviceArgs (outputs : List MediaOutputStream) (hwAccelAPI : Str) : List Str :=
  catMap (fun output =>
    if output.isHardwareAccelerated && hwAccelAPI = str "vaapi" then
      [str "-vaapi_device", str "/dev/dri/renderD128"]
    else []) outputs

/-- The per-input chunk of the input loop of `TranscoderNode.Start` (lines
63–116), ending with the `-i NAME` pair. -/
def transcoderInputArgs? (goos : Str) (cfg : PipelineConfig) (i : Input) : Option (List Str) :=
  (getInputArgs? goos i).map (fun inputTypeArgs =>
    inputTypeArgs ++ goFields i.extraInputArgs ++
      (if i.inputType = .looped_file then [str "-stream_loop", str "-1", str "-re"] else []) ++
      (if cfg.streamingMode = .live then [str "-thread_queue_size", str "200"] else []) ++
      (if i.startTime ≠ [] then [str "-ss", i.startTime] else []) ++
      (if i.endTime ≠ [] then [str "-to", i.endTime] else []) ++
      [str "-i", i.name])

/-- One iteration of the inner output loop of `TranscoderNode.Start` (lines
128–158) for input number `idx`: the source skips a stream only when BOTH its
input's track number AND its input's name differ from the current input
(`streamInput.TrackNum != input.TrackNum && streamInput.Name != input.Name`),
or when the stream skips transcoding; otherwise it contributes the `-map`
pair, the per-kind encoder args — the source casts the stream to the concrete
type selected by the CURRENT INPUT's media type with the `ok` flag discarded,
so a stream of a different kind produces a nil pointer whose dereference
inside the encode call panics, modelled by `none` — and the stream's pipe
writer end as the output token. -/
def streamArgsFor? (cfg : PipelineConfig) (idx : Nat) (input : Input)
    (stream : MediaOutputStream) : Option (List Str) :=
  let streamInput := stream.getInput
  if streamInput.trackNum ≠ input.trackNum ∧ streamInput.name ≠ input.name then some []
  else if stream.skippedTranscoding then some []
  else
    let mapArgs := [str "-map", fmtInt idx ++ ':' :: input.getStreamSpecifier]
    (match input.mediaType, stream with
      | .audio, .audio s => some (encodeAudio cfg s input)
      | .video, .video s => some (encodeVideo cfg s input)
      | .text, .text _ => some encodeText
      | _, _ => none).map (fun enc => mapArgs ++ enc ++ [stream.base.pipeWriteEnd])

/-- The full argument list built by `TranscoderNode.Start` (transcoder_node.go
lines 35–172); `none` models the panics reachable inside (the `GetInputArgs`
platform lookup and the nil-stream dereference in the encode step). -/
def transcoderStart? (ffmpeg goos : Str) (inputs : List Input) (cfg : PipelineConfig)
    (outputs : List MediaOutputStream) : Option (List Str) := do
  let inputSection ← catMapM (transcoderInputArgs? goos cfg) inputs
  let outputSection ←
    catMapM (fun ii => catMapM (streamArgsFor? cfg ii.1 ii.2) outputs) inputs.enum
  return [ffmpeg, str "-y"] ++
    (if cfg.quiet then [str "-loglevel", str "error"] else []) ++
    vaapiDeviceArgs outputs cfg.hwAccelAPI ++
    inputSection ++ outputSection

/-! ## packager_node.go -/

/-- Model of `buildPath` (packager_node.go lines 12–25).  The URL and
filesystem branches are modelled alike by `/`-concatenation: no claim settled
below depends on path cleaning or on the host separator. -/
def buildPath (outputLocation subPath : Str) : Str :=
  if subPath = [] then outputLocation else outputLocation ++ '/' :: subPath

/-- Model of `PackagerNode.setupStream`: the comma-joined `key=value`
descriptor.  The source accumulates the pairs in a Go map and serialises them
in an order the runtime chooses; the fixed insertion order used here is one
such order, and nothing proved below depends on the order — only on every
element being a `key=value` pair (a descriptor never starts with `-`). -/
def setupStream (cfg : PipelineConfig) (segmentDir : Str) (stream : MediaOutputStream) : Str :=
  let input := stream.getInput
  let entries : List (Str × Str) :=
    [(str "in", stream.base.pipeReadEnd), (str "stream", stream.typeStr)] ++
      (if input.skipEncryption > 0 then
        [(str "skip_encryption", fmtInt input.skipEncryption)]
      else []) ++
      (if input.drmLabel ≠ [] then [(str "drm_label", input.drmLabel)] else []) ++
      (if input.language ≠ [] ∧ input.language ≠ str "und" then
        [(str "language", input.language)]
      else []) ++
      (if cfg.segmentPerFile then
        [(str "init_segment", buildPath segmentDir stream.base.initSegName),
         (str "segment_template", buildPath segmentDir stream.base.mediaSegName)]
      else [(str "output", buildPath segmentDir stream.base.singleSegName)]) ++
      (if stream.isDashOnly then [(str "dash_only", str "1")] else [])
  goJoin ',' (entries.map (fun kv => kv.1 ++ '=' :: kv.2))

/-- The live-window block of `PackagerNode.Start` (packager_node.go lines
75–89), appended exactly when the streaming mode is live. -/
def packagerLiveArgs (cfg : PipelineConfig) : List Str :=
  [str "--time_shift_buffer_depth", fmtInt cfg.availabilityWindow,
   str "--preserved_segments_outside_live_window", str "3",
   str "--suggested_presentation_delay", fmtInt cfg.presentationDelay,
   str "--minimum_update_period", fmtInt cfg.updatePeriod]

/-- Model of `containsManifestFormat`. -/
def containsManifestFormat (l : List ManifestFormat) (item : ManifestFormat) : Bool :=
  l.any (fun s => s = item)

/-- The joined `scheme=value` list passed to `--utc_timings`. -/
def utcTimingsJoined (timings : List UtcTimingPair) : Str :=
  goJoin ',' (timings.map (fun t => t.schemeIdUri ++ '=' :: t.value))

/-- Model of `PackagerNode.setupManifestFormat`. -/
def setupManifestFormat (cfg : PipelineConfig) (outputLocation : Str) : List Str :=
  (if containsManifestFormat cfg.manifestFormat .dash then
    (match cfg.utcTimings with
      | some timings => [str "--utc_timings", utcTimingsJoined timings]
      | none => []) ++
      (if cfg.lowLatencyDashMode then [str "--low_latency_dash_mode=true"] else []) ++
      (if cfg.streamingMode = .vod then [str "--generate_static_live_mpd"] else []) ++
      [str "--mpd_output", buildPath outputLocation cfg.dashOutput]
  else []) ++
    (if containsManifestFormat cfg.manifestFormat .hls then
      [str "--hls_playlist_type",
       (if cfg.streamingMode = .live then str "LIVE" else str "VOD"),
       str "--hls_master_playlist_output", buildPath outputLocation cfg.hlsOutput]
    else [])

/-- Model of `PackagerNode.setupEncryptionKeys`. -/
def setupEncryptionKeys (enc : EncryptionConfig) : List Str :=
  enc.keys.map (fun key =>
    (if key.label ≠ [] then str "label=" ++ key.label ++ [':'] else []) ++
      str "key_id=" ++ key.keyID ++ str ":key=" ++ key.key)

/-- Model of `PackagerNode.setupEncryption`. -/
def setupEncryption (enc : EncryptionConfig) : List Str :=
  match enc.encryptionMode with
  | .widevine =>
    [str "--enable_widevine_encryption",
     str "--key_server_url", enc.keyServerURL,
     str "--content_id", enc.contentID,
     str "--signer", enc.signer,
     str "--aes_signing_key", enc.signingKey,
     str "--aes_signing_iv", enc.signingIV]
  | .raw =>
    [str "--enable_raw_key_encryption", str "--keys", goJoin ',' (setupEncryptionKeys enc)] ++
      (if enc.iv ≠ [] then [str "--iv", enc.iv] else []) ++
      (if enc.pssh ≠ [] then [str "--pssh", enc.pssh] else [])

/-- The full argument list built by `PackagerNode.Start` (packager_node.go
lines 60–113); `segmentDir` is `buildPath(outputLocation, SegmentFolder)` as
computed by `NewPackagerNode`. -/
def packagerStartArgs (packagerBin : Str) (cfg : PipelineConfig) (outputLocation : Str)
    (streams : List MediaOutputStream) : List Str :=
  let segmentDir := buildPath outputLocation cfg.segmentFolder
  [packagerBin] ++ streams.map (setupStream cfg segmentDir) ++
    (if cfg.quiet then [str "--quiet"] else []) ++
    (if 0 < cfg.segmentSize then [str "--segment_duration", fmtFloat cfg.segmentSize] else []) ++
    (if cfg.streamingMode = .live then packagerLiveArgs cfg else []) ++
    setupManifestFormat cfg outputLocation ++
    (if cfg.encryption.enable then setupEncryption cfg.encryption else [])

/-- The four live-window flags of the claim. -/
def packagerLiveFlagTokens : List Str :=
  [str "--time_shift_buffer_depth", str "--preserved_segments_outside_live_window",
   str "--suggested_presentation_delay", str "--minimum_update_period"]

/-- The argument tokens of a packager invocation whose text is not fixed by
the source but flows in from the configuration (paths, rendered numbers,
encryption material, UTC timing values) or from the binary name.  The
absence half of the C8 theorem assumes these do not spell one of the four
live-window flags. -/
def packagerFreeTokens (packagerBin : Str) (cfg : PipelineConfig) (outputLocation : Str) :
    List Str :=
  [packagerBin, fmtFloat cfg.segmentSize,
   buildPath outputLocation cfg.dashOutput, buildPath outputLocation cfg.hlsOutput,
   cfg.encryption.keyServerURL, cfg.encryption.contentID, cfg.encryption.signer,
   cfg.encryption.signingKey, cfg.encryption.signingIV, cfg.encryption.iv,
   cfg.encryption.pssh, goJoin ',' (setupEncryptionKeys cfg.encryption)] ++
    (match cfg.utcTimings with
      | some timings => [utcTimingsJoined timings]
      | none => [])

/-- The fixed flag tokens a VOD packager invocation can contain. -/
def packagerFixedTokens : List Str :=
  [str "--quiet", str "--segment_duration", str "--utc_timings",
   str "--low_latency_dash_mode=true", str "--generate_static_live_mpd",
   str "--mpd_output", str "--hls_playlist_type", str "LIVE", str "VOD",
   str "--hls_master_playlist_output", str "--enable_widevine_encryption",
   str "--key_server_url", str "--content_id", str "--signer",
   str "--aes_signing_key", str "--aes_signing_iv",
   str "--enable_raw_key_encryption", str "--keys", str "--iv", str "--pssh"]

/-! ## Concrete fixtures for evaluating the command builders -/

/-- A video file input, track 0 of `a.mp4`, 30 fps, no extras. -/
def videoInputA : Input :=
  ⟨.file, str "a.mp4", [], .video, 30, 0, false, [], [], [], [], 0, []⟩

/-- A second video file input, track 0 of `b.mp4` — a different input object
that shares its (media-kind-local) track number 0 with `videoInputA`. -/
def videoInputB : Input :=
  ⟨.file, str "b.mp4", [], .video, 30, 0, false, [], [], [], [], 0, []⟩

/-- A 720p bucket for the fixture streams. -/
def res720 : VideoResolution :=
  ⟨1280, 720, some 30,
    [(str "h264", str "2M"), (str "vp9", str "1M"), (str "hevc", str "1M"), (str "av1", str "512k")]⟩

/-- The software H264 codec. -/
def h264Soft : VideoCodec := ⟨str "h264", false⟩

/-- A software video plan referencing `videoInputA`, with pipe token `pipeA`. -/
def videoStreamA : VideoOutputStream :=
  ⟨⟨videoInputA, false, str "pipeA", str "pipeA", str "v_init.mp4", str "v_seg.mp4", str "v.mp4"⟩,
    res720, h264Soft⟩

/-- Encryption disabled (the defaulted widevine mode). -/
def encOff : EncryptionConfig := ⟨false, .widevine, [], [], [], [], [], [], [], []⟩

/-- A plain VOD pipeline configuration with no hardware API selected. -/
def vodCfg : PipelineConfig :=
  ⟨.vod, false, false, [], [.dash, .hls], str "dash.mpd", str "hls.m3u8", [], 4, false,
    300, 30, 8, encOff, false, none⟩

theorem goSplit_no_sep (c : Char) (a : Str) (ha : c ∉ a) : goSplit c a = [a] := by
  induction a with
  | nil => rfl
  | cons x xs ih =>
    have hx : x ≠ c := fun h => ha (h ▸ List.mem_cons_self x xs)
    have hxs : c ∉ xs := fun h => ha (List.mem_cons_of_mem x h)
    simp [goSplit, ih hxs, hx]

theorem goSplit_append (c : Char) (a b : Str) (ha : c ∉ a) :
    goSplit c (a ++ c :: b) = a :: goSplit c b := by
  induction a with
  | nil =>
    simp [goSplit]
    match hb : goSplit c b with
    | [] => simp
    | r :: rs => simp
  | cons x xs ih =>
    have hx : x ≠ c := fun h => ha (h ▸ List.mem_cons_self x xs)
    have hxs : c ∉ xs := fun h => ha (List.mem_cons_of_mem x h)
    have h := ih hxs
    simp only [List.cons_append, goSplit, List.append_eq, h, hx, if_false]

theorem goHasPre_refl (a : Str) : goHasPre a a = true := by
  induction a with
  | nil => rfl
  | cons x xs ih => simp [goHasPre, ih]

theorem goHasSuf_concat (t : Str) (c : Char) : goHasSuf (t ++ [c]) [c] = true := by
  simp [goHasSuf, goHasPre]

theorem goTrimSuffix_concat (t : Str) (c : Char) : goTrimSuffix (t ++ [c]) [c] = t := by
  simp only [goTrimSuffix, goHasSuf_concat, if_true, List.length_append,
    List.length_singleton, Nat.add_sub_cancel]
  exact List.take_left t [c]

theorem goTrimSuffix_of_no_suffix (s suffix : Str) (h : goHasSuf s suffix = false) :
    goTrimSuffix s suffix = s := by
  simp [goTrimSuffix, h]

theorem goHasSuf_digits_no_pipe (a b : Str) (hbne : b ≠ []) (hb : b.all Char.isDigit) :
    goHasSuf (a ++ '/' :: b) (str "|") = false := by
  obtain ⟨c, rest, hrev⟩ : ∃ c rest, b.reverse = c :: rest := by
    cases hr : b.reverse with
    | nil => exact absurd (List.reverse_eq_nil_iff.mp hr) hbne
    | cons c rest => exact ⟨c, rest, rfl⟩
  have hcmem : c ∈ b := List.mem_reverse.mp (hrev ▸ List.mem_cons_self c rest)
  have hcd : c.isDigit = true := by
    rw [List.all_eq_true] at hb
    exact hb c hcmem
  have hcne : ¬ (c = '|') := by
    intro he
    rw [he] at hcd
    exact absurd hcd (by decide)
  have hpipe : (str "|").reverse = ['|'] := rfl
  rw [goHasSuf, hpipe, List.reverse_append, List.reverse_cons, hrev]
  simp only [List.cons_append, List.append_assoc]
  rw [goHasPre]
  simp [hcne]

theorem digitsVal?_shape (s : Str) (n : Nat) (h : digitsVal? s = some n) :
    s ≠ [] ∧ s.all Char.isDigit := by
  by_contra hc
  simp only [digitsVal?] at h
  rw [if_neg] at h
  · exact Option.noConfusion h
  · intro hpos
    exact hc ⟨hpos.1, hpos.2⟩

theorem digitsVal?_not_mem (s : Str) (n : Nat) (c : Char) (h : digitsVal? s = some n)
    (hc : c.isDigit = false) : c ∉ s := by
  intro hmem
  have := (digitsVal?_shape s n h).2
  rw [List.all_eq_true] at this
  have := this c hmem
  rw [hc] at this
  exact Bool.noConfusion this

theorem parseFloatOrZero_of_digits (s : Str) (n : Nat) (h : digitsVal? s = some n) :
    parseFloatOrZero s = (n : ℚ) := by
  simp [parseFloatOrZero, h]

theorem mem_ite_nil {P : Prop} [Decidable P] {a : α} {l : List α}
    (h : a ∈ if P then l else []) : a ∈ l := by
  by_cases hp : P
  · rwa [if_pos hp] at h
  · rw [if_neg hp] at h
    cases h

theorem goJoin_cons_eq (c : Char) (x : Str) (xs : List Str) :
    goJoin c (x :: xs) =
      x ++ (match xs with | [] => [] | y :: rest => c :: goJoin c (y :: rest)) := by
  cases xs <;> simp [goJoin]

theorem setupStream_ne_flag (cfg : PipelineConfig) (segmentDir : Str)
    (s : MediaOutputStream) (tf : Str) : setupStream cfg segmentDir s ≠ '-' :: tf := by
  intro hcontra
  simp only [setupStream, List.map_cons, List.map_append, List.cons_append] at hcontra
  rw [goJoin_cons_eq] at hcontra
  have hin : str "in" = 'i' :: 'n' :: [] := rfl
  rw [hin] at hcontra
  simp only [List.cons_append, List.cons.injEq] at hcontra
  exact absurd hcontra.1 (by decide)

theorem flag_not_in_manifestArgs (cfg : PipelineConfig) (outputLocation : Str) (f : Str)
    (hfixed : f ∉ packagerFixedTokens)
    (hmpd : f ≠ buildPath outputLocation cfg.dashOutput)
    (hhls : f ≠ buildPath outputLocation cfg.hlsOutput)
    (hutc : ∀ timings, cfg.utcTimings = some timings → f ≠ utcTimingsJoined timings) :
    f ∉ setupManifestFormat cfg outputLocation := by
  intro hmem
  rw [setupManifestFormat] at hmem
  rcases List.mem_append.mp hmem with h | h
  · have h2 := mem_ite_nil h
    rcases List.mem_append.mp h2 with h3 | h3
    · rcases List.mem_append.mp h3 with h4 | h4
      · rcases List.mem_append.mp h4 with h5 | h5
        · cases hu : cfg.utcTimings with
          | none =>
            rw [hu] at h5
            exact List.not_mem_nil f h5
          | some timings =>
            rw [hu] at h5
            rcases List.mem_cons.mp h5 with h6 | h6
            · exact hfixed (h6 ▸ by decide)
            · rcases List.mem_cons.mp h6 with h7 | h7
              · exact hutc timings hu h7
              · exact List.not_mem_nil f h7
        · have h6 := mem_ite_nil h5
          rcases List.mem_cons.mp h6 with h7 | h7
          · exact hfixed (h7 ▸ by decide)
          · exact List.not_mem_nil f h7
      · have h5 := mem_ite_nil h4
        rcases List.mem_cons.mp h5 with h6 | h6
        · exact hfixed (h6 ▸ by decide)
        · exact List.not_mem_nil f h6
    · rcases List.mem_cons.mp h3 with h4 | h4
      · exact hfixed (h4 ▸ by decide)
      · rcases List.mem_cons.mp h4 with h5 | h5
        · exact hmpd h5
        · exact List.not_mem_nil f h5
  · have h2 := mem_ite_nil h
    rcases List.mem_cons.mp h2 with h3 | h3
    · exact hfixed (h3 ▸ by decide)
    · rcases List.mem_cons.mp h3 with h4 | h4
      · by_cases hlive : cfg.streamingMode = .live
        · rw [if_pos hlive] at h4
          exact hfixed (h4 ▸ by decide)
        · rw [if_neg hlive] at h4
          exact hfixed (h4 ▸ by decide)
      · rcases List.mem_cons.mp h4 with h5 | h5
        · exact hfixed (h5 ▸ by decide)
        · rcases List.mem_cons.mp h5 with h6 | h6
          · exact hhls h6
          · exact List.not_mem_nil f h6

theorem flag_not_in_encArgs (enc : EncryptionConfig) (f : Str)
    (hfixed : f ∉ packagerFixedTokens)
    (hksu : f ≠ enc.keyServerURL) (hcid : f ≠ enc.contentID) (hsgn : f ≠ enc.signer)
    (hsk : f ≠ enc.signingKey) (hsiv : f ≠ enc.signingIV)
    (hkeys : f ≠ goJoin ',' (setupEncryptionKeys enc)) (hiv : f ≠ enc.iv)
    (hpssh : f ≠ enc.pssh) :
    f ∉ setupEncryption enc := by
  intro hmem
  rw [setupEncryption] at hmem
  cases he : enc.encryptionMode <;> rw [he] at hmem
  · rcases List.mem_cons.mp hmem with h | h
    · exact hfixed (h ▸ by decide)
    · rcases List.mem_cons.mp h with h | h
      · exact hfixed (h ▸ by decide)
      · rcases List.mem_cons.mp h with h | h
        · exact hksu h
        · rcases List.mem_cons.mp h with h | h
          · exact hfixed (h ▸ by decide)
          · rcases List.mem_cons.mp h with h | h
            · exact hcid h
            · rcases List.mem_cons.mp h with h | h
              · exact hfixed (h ▸ by decide)
              · rcases List.mem_cons.mp h with h | h
                · exact hsgn h
                · rcases List.mem_cons.mp h with h | h
                  · exact hfixed (h ▸ by decide)
                  · rcases List.mem_cons.mp h with h | h
                    · exact hsk h
                    · rcases List.mem_cons.mp h with h | h
                      · exact hfixed (h ▸ by decide)
                      · rcases List.mem_cons.mp h with h | h
                        · exact hsiv h
                        · exact List.not_mem_nil f h
  · rcases List.mem_append.mp hmem with h | h
    · rcases List.mem_append.mp h with h2 | h2
      · rcases List.mem_cons.mp h2 with h3 | h3
        · exact hfixed (h3 ▸ by decide)
        · rcases List.mem_cons.mp h3 with h4 | h4
          · exact hfixed (h4 ▸ by decide)
          · rcases List.mem_cons.mp h4 with h5 | h5
            · exact hkeys h5
            · exact List.not_mem_nil f h5
      · have h3 := mem_ite_nil h2
        rcases List.mem_cons.mp h3 with h4 | h4
        · exact hfixed (h4 ▸ by decide)
        · rcases List.mem_cons.mp h4 with h5 | h5
          · exact hiv h5
          · exact List.not_mem_nil f h5
    · have h3 := mem_ite_nil h
      rcases List.mem_cons.mp h3 with h4 | h4
      · exact hfixed (h4 ▸ by decide)
      · rcases List.mem_cons.mp h4 with h5 | h5
        · exact hpssh h5
        · exact List.not_mem_nil f h5

theorem flag_not_in_packagerArgs (packagerBin outputLocation : Str) (cfg : PipelineConfig)
    (streams : List MediaOutputStream) (f tf : Str) (hf : f = '-' :: tf)
    (hvod : cfg.streamingMode = .vod)
    (hfixed : f ∉ packagerFixedTokens)
    (hfree : f ∉ packagerFreeTokens packagerBin cfg outputLocation) :
    f ∉ packagerStartArgs packagerBin cfg outputLocation streams := by
  have hfr : ∀ g ∈ packagerFreeTokens packagerBin cfg outputLocation, f ≠ g := by
    intro g hg hcontra
    exact hfree (hcontra ▸ hg)
  have hbin : f ≠ packagerBin :=
    hfr _ (by rw [packagerFreeTokens]; exact List.mem_append_left _ (by simp))
  have hseg : f ≠ fmtFloat cfg.segmentSize :=
    hfr _ (by rw [packagerFreeTokens]; exact List.mem_append_left _ (by simp))
  have hmpd : f ≠ buildPath outputLocation cfg.dashOutput :=
    hfr _ (by rw [packagerFreeTokens]; exact List.mem_append_left _ (by simp))
  have hhls : f ≠ buildPath outputLocation cfg.hlsOutput :=
    hfr _ (by rw [packagerFreeTokens]; exact List.mem_append_left _ (by simp))
  have hksu : f ≠ cfg.encryption.keyServerURL :=
    hfr _ (by rw [packagerFreeTokens]; exact List.mem_append_left _ (by simp))
  have hcid : f ≠ cfg.encryption.contentID :=
    hfr _ (by rw [packagerFreeTokens]; exact List.mem_append_left _ (by simp))
  have hsgn : f ≠ cfg.encryption.signer :=
    hfr _ (by rw [packagerFreeTokens]; exact List.mem_append_left _ (by simp))
  have hsk : f ≠ cfg.encryption.signingKey :=
    hfr _ (by rw [packagerFreeTokens]; exact List.mem_append_left _ (by simp))
  have hsiv : f ≠ cfg.encryption.signingIV :=
    hfr _ (by rw [packagerFreeTokens]; exact List.mem_append_left _ (by simp))
  have hiv : f ≠ cfg.encryption.iv :=
    hfr _ (by rw [packagerFreeTokens]; exact List.mem_append_left _ (by simp))
  have hpssh : f ≠ cfg.encryption.pssh :=
    hfr _ (by rw [packagerFreeTokens]; exact List.mem_append_left _ (by simp))
  have hkeys : f ≠ goJoin ',' (setupEncryptionKeys cfg.encryption) :=
    hfr _ (by rw [packagerFreeTokens]; exact List.mem_append_left _ (by simp))
  have hutc : ∀ timings, cfg.utcTimings = some timings → f ≠ utcTimingsJoined timings := by
    intro timings htimings
    refine hfr _ ?_
    rw [packagerFreeTokens, htimings]
    exact List.mem_append_right _ (by simp)
  intro hmem
  rw [packagerStartArgs] at hmem
  rcases List.mem_append.mp hmem with h | h
  · rcases List.mem_append.mp h with h2 | h2
    · rcases List.mem_append.mp h2 with h3 | h3
      · rcases List.mem_append.mp h3 with h4 | h4
        · rcases List.mem_append.mp h4 with h5 | h5
          · rcases List.mem_append.mp h5 with h6 | h6
            · rcases List.mem_cons.mp h6 with h7 | h7
              · exact hbin h7
              · exact List.not_mem_nil f h7
            · rw [List.mem_map] at h6
              obtain ⟨s, _, heq⟩ := h6
              rw [hf] at heq
              exact setupStream_ne_flag cfg (buildPath outputLocation cfg.segmentFolder) s tf heq
          · have h6 := mem_ite_nil h5
            rcases List.mem_cons.mp h6 with h7 | h7
            · exact hfixed (h7 ▸ by decide)
            · exact List.not_mem_nil f h7
        · have h5 := mem_ite_nil h4
          rcases List.mem_cons.mp h5 with h6 | h6
          · exact hfixed (h6 ▸ by decide)
          · rcases List.mem_cons.mp h6 with h7 | h7
            · exact hseg h7
            · exact List.not_mem_nil f h7
      · rw [hvod] at h3
        rw [if_neg (by intro hx; exact StreamingMode.noConfusion hx)] at h3
        exact List.not_mem_nil f h3
    · exact flag_not_in_manifestArgs cfg outputLocation f hfixed hmpd hhls hutc h2
  · have h2 := mem_ite_nil h
    exact flag_not_in_encArgs cfg.encryption f hfixed hksu hcid hsgn hsk hsiv
      hkeys hiv hpssh h2

/-! ## Claim theorems -/

/-- C6: frame-rate autodetection accepts probe output of both forms `num/den`
and `num/den|` (the trailing pipe is trimmed as a terminator before the split):
in both cases the result of `GetFrameRate` is num divided by den, and it is
additionally halved exactly when the input is flagged as interlaced. -/
theorem getFrameRate_fraction (a b : Str) (num den : Nat) (interlaced : Bool)
    (ha : digitsVal? a = some num) (hb : digitsVal? b = some den) (hden : den ≠ 0) :
    GetFrameRate interlaced (some (a ++ '/' :: b)) =
        some (if interlaced then (num : ℚ) / den / 2 else (num : ℚ) / den) ∧
      GetFrameRate interlaced (some (a ++ '/' :: b ++ ['|'])) =
        some (if interlaced then (num : ℚ) / den / 2 else (num : ℚ) / den) := by
  have hane : a ≠ [] := (digitsVal?_shape a num ha).1
  have hbne : b ≠ [] := (digitsVal?_shape b den hb).1
  have hsa : '/' ∉ a := digitsVal?_not_mem a num '/' ha (by decide)
  have hsb : '/' ∉ b := digitsVal?_not_mem b den '/' hb (by decide)
  have hsplit : goSplit '/' (a ++ '/' :: b) = [a, b] := by
    rw [goSplit_append '/' a b hsa, goSplit_no_sep '/' b hsb]
  constructor
  · have hlen : ¬ (a ++ '/' :: b).length < 1 := by
      simp [List.length_append]
    have htrim : goTrimSuffix (a ++ '/' :: b) (str "|") = a ++ '/' :: b :=
      goTrimSuffix_of_no_suffix _ _
        (goHasSuf_digits_no_pipe a b hbne (digitsVal?_shape b den hb).2)
    simp only [GetFrameRate, htrim, hsplit, hlen, if_false,
      parseFloatOrZero_of_digits a num ha, parseFloatOrZero_of_digits b den hb]
  · have hlen : ¬ (a ++ '/' :: b ++ ['|']).length < 1 := by
      simp [List.length_append]
    have hshape : a ++ '/' :: b ++ ['|'] = (a ++ '/' :: b) ++ ['|'] := by simp
    have htrim : goTrimSuffix (a ++ '/' :: b ++ ['|']) (str "|") = a ++ '/' :: b := by
      rw [hshape]
      exact goTrimSuffix_concat (a ++ '/' :: b) '|'
    simp only [GetFrameRate, htrim, hsplit, hlen, if_false,
      parseFloatOrZero_of_digits a num ha, parseFloatOrZero_of_digits b den hb]

/-- Witness for C6: `"30000/1001"` and the boundary input named by the spec,
`"30000/1001|"`, both parse as 30000/1001 (= 29.97002997…) for a
non-interlaced input, and the latter as half of that for an interlaced one. -/
theorem getFrameRate_fraction_witness :
    GetFrameRate false (some (str "30000/1001")) = some ((30000 : ℚ) / 1001) ∧
      GetFrameRate false (some (str "30000/1001|")) = some ((30000 : ℚ) / 1001) ∧
      GetFrameRate true (some (str "30000/1001|")) = some ((30000 : ℚ) / 1001 / 2) := by
  have h1 := getFrameRate_fraction (str "30000") (str "1001") 30000 1001 false
    (by decide) (by decide) (by decide)
  have h2 := getFrameRate_fraction (str "30000") (str "1001") 30000 1001 true
    (by decide) (by decide) (by decide)
  exact ⟨by simpa using h1.1, by simpa using h1.2, by simpa using h2.2⟩

/-- C10: the playlist helper `unquote` is defined (returns a value rather than
panicking) exactly for strings of length at least two, in which case it strips
the first and last characters; consequently the `#EXT-X-MAP` branch of
media-playlist parsing panics whenever the extracted `URI` attribute is absent
(Go's map lookup then yields the empty string) or its value is shorter than
two characters. -/
theorem unquote_partial (s : Str) (periodDir : Str) (attribs : List (Str × Str))
    (hshort : (attribsGet attribs (str "URI")).length < 2) :
    ((unquote s).isSome ↔ 2 ≤ s.length) ∧
      (2 ≤ s.length → unquote s = some (s.dropLast.drop 1)) ∧
      extXMapRewrite periodDir attribs = none := by
  refine ⟨?_, ?_, ?_⟩
  · constructor
    · intro h
      by_contra hlt
      have h2 : s.length < 2 := Nat.lt_of_not_le hlt
      have : unquote s = none := by
        simp only [unquote, goSliceStr]
        rw [if_neg]
        intro ⟨_, h12, _⟩
        omega
      rw [this] at h
      simp at h
    · intro h2
      simp only [unquote, goSliceStr]
      rw [if_pos (by constructor <;> omega)]
      simp
  · intro h2
    simp only [unquote, goSliceStr]
    rw [if_pos (by constructor <;> omega)]
    have htoNat : ((s.length : Int) - 1).toNat = s.length - 1 := by omega
    rw [htoNat, ← List.dropLast_eq_take]
    norm_num
  · have : unquote (attribsGet attribs (str "URI")) = none := by
      simp only [unquote, goSliceStr]
      rw [if_neg]
      intro ⟨_, h12, _⟩
      omega
    simp [extXMapRewrite, this]

/-- C3 (code evaluated at the failing inputs): the presence gate inverts both
directions of the claim.  For an external-command input — which `probe`
refuses to probe — `IsPresent` returns `err == nil` = false, so
`Input.SetDefaults` raises `InputNotFound`, although the claim (and the
comment on `IsPresent` itself, "If we can't probe this input type, assume it
is present") requires no such error; and for a probeable file input whose
probe runs but returns nothing (the track is absent), `probe` yields a nil
error, so `IsPresent` returns true and no input-not-found error is raised. -/
theorem isPresent_gate_divergence :
    IsPresent extCmdInput (.output (str "index=0")) = false ∧
      setDefaultsPresence extCmdInput (.output (str "index=0")) =
        .error (.inputNotFound (str "cat video.mp4") 0) ∧
      IsPresent plainFileInput (.output []) = true ∧
      setDefaultsPresence plainFileInput (.output []) = .ok () := by
  decide

/-- C4 (code evaluated at the failing input): with period 1 holding one video
stream and period 2 holding one audio stream — both stored as the pointers the
`New*OutputStream` constructors return — `NewPeriodConcatNode` computes
`concatWillFail = false` and concatenation proceeds, because its type switch
is written over the value types and never matches the pointer dynamic types;
the claim requires this mismatch of media-kind sets to abort concatenation
with a warning. -/
theorem periodConcat_shape_check_never_fires :
    concatWillFail? [[.videoOutputStreamPtr], [.audioOutputStreamPtr]] = some false ∧
      switchCaseVideoVal .videoOutputStreamPtr = false ∧
      switchCaseAudioVal .audioOutputStreamPtr = false := by
  decide

/-- C5 (code evaluated at the failing input): for a 1920×1080 input at 30 fps,
`GetResolution` returns "1080p" under one legal map-iteration order (the
source-literal order) and "8k-hfr" under another (its reverse, also a
permutation of the same map entries), so the result is not the well-defined
first bucket of a fixed table order and differs between runs. -/
theorem getResolution_depends_on_map_order :
    GetResolution DefaultVideoResolutions 1920 1080 30 = some (str "1080p") ∧
      GetResolution DefaultVideoResolutions.reverse 1920 1080 30 = some (str "8k-hfr") ∧
      DefaultVideoResolutions.reverse.Perm DefaultVideoResolutions := by
  exact ⟨by decide, by decide, List.reverse_perm _⟩

/-- C9 (code evaluated at the failing inputs): the version gate crashes with
an index-out-of-range panic instead of deciding the comparison whenever the
parsed version agrees with the required minimum on the first two components
and one of the two slices has no third component.  In particular an installed
FFmpeg 4.1.3 — which satisfies the 4.1 minimum, so the gate must succeed —
panics (`minimumVersion[2]` on the two-element minimum), as does a version
string "4.1" equal to the two-component minimum and a "2.6" against the
packager minimum 2.6.1 (`version[2]` on the two-element parse).  Versions
differing within the first two components are still handled as the claim
describes. -/
theorem checkCommandVersion_index_panic :
    checkCommandVersion? (str "ffmpeg version 4.1.3-static") [4, 1] = none ∧
      checkCommandVersion? (str "ffmpeg version 4.1") [4, 1] = none ∧
      checkCommandVersion? (str "packager version v2.6") [2, 6, 1] = none ∧
      checkCommandVersion? (str "ffmpeg version 4.2.1") [4, 1] = some .ok ∧
      checkCommandVersion? (str "FFmpeg 4.0.2") [4, 1] = some .outOfDate ∧
      checkCommandVersion? (str "no digits here") [4, 1] = some .unparseable := by
  decide

/-- C1 (code evaluated at the failing input): over an output directory holding
the top-level manifests `dash.mpd` and `hls.m3u8`, a one-level-deep manifest
`a/x.mpd`, a two-level-deep manifest `a/b/y.m3u8` and a segment `a/seg.mp4`,
the manifest (second) sync pass captures only `a/x.mpd` — Go's
`filepath.Glob("…/**/*.mpd")` matches exactly one directory level, so the
top-level and deeper manifests are captured in neither pass — while the
segment pass correctly excludes every `.mpd`/`.m3u8` file, as the claim's
first half states. -/
theorem cloudUpload_misses_top_level_manifests :
    uploadManifestFiles
        [[str "dash.mpd"], [str "hls.m3u8"], [str "a", str "x.mpd"],
          [str "a", str "b", str "y.m3u8"], [str "a", str "seg.mp4"]] =
      [[str "a", str "x.mpd"]] ∧
      pass1Files
          [[str "dash.mpd"], [str "hls.m3u8"], [str "a", str "x.mpd"],
            [str "a", str "b", str "y.m3u8"], [str "a", str "seg.mp4"]] =
        [[str "a", str "seg.mp4"]] ∧
      goHasSuf (pathString [str "dash.mpd"]) (str ".mpd") = true := by
  decide

/-- Witness for C10: instantiated at the three-character quoted string
`"u"` and at an `#EXT-X-MAP` attribute dictionary with no `URI` key. -/
theorem unquote_partial_witness :
    ((unquote (str "\"u\"")).isSome ↔ 2 ≤ (str "\"u\"").length) ∧
      (2 ≤ (str "\"u\"").length →
        unquote (str "\"u\"") = some ((str "\"u\"").dropLast.drop 1)) ∧
      extXMapRewrite (str "period_1") [] = none :=
  unquote_partial (str "\"u\"") (str "period_1") [] (by decide)

/-- C2 (code evaluated at the failing input): with two video inputs `a.mp4`
and `b.mp4` that share the media-kind-local track number 0, and a single
non-skip output plan referencing `a.mp4`, the generated transcoder command
carries one `-i` per input (first half of the claim) but emits the plan's
pipe writer-end token twice — once under each input — because the output
filter skips a stream only when both the track number and the name differ
from the current input, contradicting its own comment ("Skip outputs that
don't match this exact input object"); the claim requires exactly one output
token for the one non-skip plan. -/
theorem transcoder_duplicates_output_token :
    ((transcoderStart? (str "ffmpeg") (str "linux") [videoInputA, videoInputB] vodCfg
        [.video videoStreamA]).map (fun args =>
          (args.count (str "-i"), args.count (str "pipeA")))) = some (2, 2) ∧
      ([MediaOutputStream.video videoStreamA].countP
          (fun s => !s.skippedTranscoding)) = 1 := by
  decide

/-- C8: the generated packager command contains the live-window block —
`--time_shift_buffer_depth` with the availability window,
`--preserved_segments_outside_live_window 3`,
`--suggested_presentation_delay` with the presentation delay and
`--minimum_update_period` with the update period, in this order — exactly when
the streaming mode is live; for a VOD run none of the four flags appears
anywhere in the command (assuming the free-text configuration strings — paths,
encryption material, UTC timing values, the binary name — do not themselves
spell one of the flags, which the hypothesis `hfree` states). -/
theorem packager_live_window_flags (packagerBin outputLocation : Str)
    (cfg : PipelineConfig) (streams : List MediaOutputStream)
    (hfree : ∀ f ∈ packagerLiveFlagTokens,
      f ∉ packagerFreeTokens packagerBin cfg outputLocation) :
    (cfg.streamingMode = .live →
      ∃ pre post, packagerStartArgs packagerBin cfg outputLocation streams =
        pre ++
          [str "--time_shift_buffer_depth", fmtInt cfg.availabilityWindow,
           str "--preserved_segments_outside_live_window", str "3",
           str "--suggested_presentation_delay", fmtInt cfg.presentationDelay,
           str "--minimum_update_period", fmtInt cfg.updatePeriod] ++ post) ∧
      (cfg.streamingMode = .vod →
        ∀ f ∈ packagerLiveFlagTokens,
          f ∉ packagerStartArgs packagerBin cfg outputLocation streams) := by
  constructor
  · intro hlive
    refine ⟨[packagerBin] ++
      streams.map (setupStream cfg (buildPath outputLocation cfg.segmentFolder)) ++
      (if cfg.quiet then [str "--quiet"] else []) ++
      (if 0 < cfg.segmentSize then [str "--segment_duration", fmtFloat cfg.segmentSize]
       else []),
      setupManifestFormat cfg outputLocation ++
        (if cfg.encryption.enable then setupEncryption cfg.encryption else []), ?_⟩
    rw [packagerStartArgs, hlive, packagerLiveArgs]
    simp [List.append_assoc]
  · intro hvod f hfmem
    have hfree' := hfree f hfmem
    rcases List.mem_cons.mp hfmem with h | h
    · exact h ▸ flag_not_in_packagerArgs packagerBin outputLocation cfg streams _
        (str "-time_shift_buffer_depth") rfl hvod (by decide) (h ▸ hfree')
    · rcases List.mem_cons.mp h with h2 | h2
      · exact h2 ▸ flag_not_in_packagerArgs packagerBin outputLocation cfg streams _
          (str "-preserved_segments_outside_live_window") rfl hvod (by decide) (h2 ▸ hfree')
      · rcases List.mem_cons.mp h2 with h3 | h3
        · exact h3 ▸ flag_not_in_packagerArgs packagerBin outputLocation cfg streams _
            (str "-suggested_presentation_delay") rfl hvod (by decide) (h3 ▸ hfree')
        · rcases List.mem_cons.mp h3 with h4 | h4
          · exact h4 ▸ flag_not_in_packagerArgs packagerBin outputLocation cfg streams _
              (str "-minimum_update_period") rfl hvod (by decide) (h4 ▸ hfree')
          · exact absurd h4 (List.not_mem_nil f)

/-- Witness for C8, applied to a VOD configuration (absence of the live
flags) with the spoof-freedom hypothesis discharged by evaluation. -/
theorem packager_live_window_flags_witness :
    (vodCfg.streamingMode = .live →
      ∃ pre post, packagerStartArgs (str "packager") vodCfg (str "out") [] =
        pre ++
          [str "--time_shift_buffer_depth", fmtInt vodCfg.availabilityWindow,
           str "--preserved_segments_outside_live_window", str "3",
           str "--suggested_presentation_delay", fmtInt vodCfg.presentationDelay,
           str "--minimum_update_period", fmtInt vodCfg.updatePeriod] ++ post) ∧
      (vodCfg.streamingMode = .vod →
        ∀ f ∈ packagerLiveFlagTokens,
          f ∉ packagerStartArgs (str "packager") vodCfg (str "out") []) :=
  packager_live_window_flags (str "packager") (str "out") vodCfg [] (by decide)

end ShakaStreamerGo
